import Mathlib

/-!
Verification of the trace-tree reconstruction and polling tool (`main.go`).

The embedding below models:
* the record data model (`nodeId`, `nodeDetails` in the source);
* the tree-building phase of `main` (lines 102-139): creation of one tree
  node per record, parent resolution against the fully populated node map,
  attachment under the resolved parent or under the `<orphaned>` tree, and
  collection of root transactions;
* the label construction for each node (lines 107-116), including the
  `color.CyanString` highlight applied to transactions;
* the polling loop of `main` (lines 80-143) as a deterministic controller
  driven by a finite schedule of (deadline-reading, fetch-result) events;
* the result-set processing of `fetchTrace` (lines 233-312), including the
  "too many hits" truncation check.
-/

/-- Identity of a record: the `nodeId` struct of the source
(`traceID`, `spanID`). -/
structure NodeId where
  traceID : String
  spanID : String
deriving DecidableEq, Repr

/-- Attributes of a record: the `nodeDetails` struct of the source. -/
structure NodeDetails where
  parentID : String
  name : String
  type_ : String
  service : String
  result : String
  transaction : Bool
deriving DecidableEq, Repr

/-- A fetched record set: the contents of the Go map
`map[nodeId]nodeDetails`, as an association list with pairwise distinct
keys (Go map semantics guarantee key uniqueness). -/
abbrev RecordSet := List (NodeId × NodeDetails)

/-- Key of the synthetic root node: `treeNodes[nodeId{traceID: traceID}]`
in the source, i.e. the queried trace id paired with the empty span id. -/
def rootKey (qt : String) : NodeId := ⟨qt, ""⟩

/-- Lookup of a record by identity in the record set (Go map indexing). -/
def findRec : RecordSet → NodeId → Option NodeDetails
  | [], _ => none
  | r :: rest, k => if r.1 = k then some r.2 else findRec rest k

/-- Which tree object a `treeNodes` lookup yields: the synthetic root
object, or the tree node created for a record.  In the source, `treeNodes`
is seeded with the root at `rootKey` and then one entry per record is
inserted; a record whose identity equals the root key overwrites the root
entry, which is why a record entry takes precedence below. -/
inductive TreeRef where
  | root
  | node (id : NodeId)
deriving DecidableEq, Repr

/-- Resolution of a parent key against `treeNodes`
(`treeNodes[nodeId{traceID: id.traceID, spanID: node.parentID}]` in the
source): a record entry if one exists, otherwise the synthetic root if the
key is the root key, otherwise `none` (Go `nil`). -/
def resolveParent (qt : String) (recs : RecordSet) (k : NodeId) : Option TreeRef :=
  if (findRec recs k).isSome then some (.node k)
  else if k = rootKey qt then some .root
  else none

/-- Where a record ends up in the build: attached under a tree node
(`parentNode.AddTree`), or added to the `<orphaned>` tree. -/
inductive Placement where
  | attached (parent : TreeRef)
  | orphan
deriving DecidableEq, Repr

/-- The parent key a record declares:
`nodeId{traceID: id.traceID, spanID: node.parentID}` in the source. -/
def parentKey (id : NodeId) (d : NodeDetails) : NodeId :=
  ⟨id.traceID, d.parentID⟩

/-- Placement of one record during the attachment loop (source lines
117-126): attach under the resolved parent, or orphan when the lookup
yields `nil`. -/
def placeRecord (qt : String) (recs : RecordSet) (id : NodeId) (d : NodeDetails) : Placement :=
  match resolveParent qt recs (parentKey id d) with
  | some p => .attached p
  | none => .orphan

/-- Identities placed in the `<orphaned>` tree by the build. -/
def buildOrphans (qt : String) (recs : RecordSet) : List NodeId :=
  (recs.filter (fun r => placeRecord qt recs r.1 r.2 == Placement.orphan)).map Prod.fst

/-- Identities attached under some tree node (the forest side of the
build: every record whose parent lookup did not yield `nil`). -/
def buildForestIds (qt : String) (recs : RecordSet) : List NodeId :=
  (recs.filter (fun r => !(placeRecord qt recs r.1 r.2 == Placement.orphan))).map Prod.fst

/-- The `rootTransactions` collection of the source (lines 127-129):
records that are transactions and whose resolved parent is the synthetic
root object itself. -/
def buildRootTransactions (qt : String) (recs : RecordSet) : List NodeId :=
  (recs.filter (fun r =>
    r.2.transaction && (placeRecord qt recs r.1 r.2 == Placement.attached .root))).map Prod.fst

/-- Whether some record's parent lookup yields `nil`; with
`recentRequest` this is exactly the condition that makes the build loop
execute `continue queryNodes` (restart). -/
def hasUnresolved (qt : String) (recs : RecordSet) : Bool :=
  recs.any (fun r => placeRecord qt recs r.1 r.2 == Placement.orphan)

/-- Reachability from the synthetic root by resolved parent hops: a record
reaches the root if its parent resolves to the root object, or resolves to
a record that reaches the root. -/
inductive ReachesRoot (qt : String) (recs : RecordSet) : NodeId → Prop where
  | direct (id : NodeId) (d : NodeDetails) :
      findRec recs id = some d →
      resolveParent qt recs (parentKey id d) = some .root →
      ReachesRoot qt recs id
  | step (id : NodeId) (d : NodeDetails) (pid : NodeId) :
      findRec recs id = some d →
      resolveParent qt recs (parentKey id d) = some (.node pid) →
      ReachesRoot qt recs pid →
      ReachesRoot qt recs id

/-- Outcome of following a record's resolved parent chain upward. -/
inductive ChaseOutcome where
  | reachedRoot
  | orphanAncestor
  | cycle
  | stuck
deriving DecidableEq, Repr

theorem length_filter_lt_of_mem {α : Type} [DecidableEq α]
    (l : List α) (visited : List α) (a : α) (hmem : a ∈ l) (hnv : a ∉ visited) :
    (l.filter (fun k => decide (k ∉ a :: visited))).length <
      (l.filter (fun k => decide (k ∉ visited))).length := by
  induction l with
  | nil => cases hmem
  | cons b t ih =>
    by_cases hb : b = a
    · subst hb
      simp only [List.filter_cons]
      have h1 : (decide (b ∉ b :: visited)) = false := by simp
      have h2 : (decide (b ∉ visited)) = true := by simpa using hnv
      rw [h1, h2]
      have hmono : (t.filter (fun k => decide (k ∉ b :: visited))).length ≤
          (t.filter (fun k => decide (k ∉ visited))).length := by
        apply List.Sublist.length_le
        apply List.monotone_filter_right
        intro x hx
        simp only [decide_eq_true_eq] at hx ⊢
        intro hmemv
        exact hx (List.mem_cons_of_mem _ hmemv)
      simpa using Nat.lt_succ_of_le hmono
    · have hmem' : a ∈ t := by
        rw [List.mem_cons] at hmem
        rcases hmem with h | h
        · exact absurd h.symm hb
        · exact h
      simp only [List.filter_cons]
      have hiff : (b ∈ a :: visited) ↔ (b ∈ visited) := by
        rw [List.mem_cons]
        constructor
        · intro h
          rcases h with h | h
          · exact absurd h hb
          · exact h
        · exact Or.inr
      have hsame : (decide (b ∉ a :: visited)) = (decide (b ∉ visited)) := by
        simp [hiff]
      rw [hsame]
      by_cases hbv : b ∉ visited
      · simp only [hbv, decide_True]
        simpa using Nat.succ_lt_succ (ih hmem')
      · simp only [hbv, decide_False]
        exact ih hmem'

theorem findRec_some_mem_keys (recs : RecordSet) (k : NodeId) (d : NodeDetails)
    (h : findRec recs k = some d) : k ∈ recs.map Prod.fst := by
  induction recs with
  | nil => simp [findRec] at h
  | cons r rest ih =>
    rw [findRec] at h
    by_cases hk : r.1 = k
    · simp [hk.symm]
    · rw [if_neg hk] at h
      simp [ih h]

theorem findRec_isSome_of_mem (recs : RecordSet) (id : NodeId) (d : NodeDetails)
    (hm : (id, d) ∈ recs) : (findRec recs id).isSome := by
  induction recs with
  | nil => cases hm
  | cons r rest ih =>
    rw [findRec]
    by_cases hk : r.1 = id
    · simp [hk]
    · rw [if_neg hk]
      rw [List.mem_cons] at hm
      rcases hm with h | h
      · exact absurd (congrArg Prod.fst h).symm hk
      · exact ih h

theorem resolveParent_node_isSome (qt : String) (recs : RecordSet) (k pid : NodeId)
    (h : resolveParent qt recs k = some (.node pid)) :
    pid = k ∧ (findRec recs k).isSome := by
  unfold resolveParent at h
  by_cases hs : (findRec recs k).isSome = true
  · rw [if_pos hs] at h
    simp only [Option.some.injEq, TreeRef.node.injEq] at h
    exact ⟨h.symm, hs⟩
  · rw [if_neg hs] at h
    by_cases hr : k = rootKey qt
    · rw [if_pos hr] at h
      cases h
    · rw [if_neg hr] at h
      cases h

/-- Following the resolved parent chain upward from a record, recording
visited identities.  Returns whether the chain reaches the synthetic root,
hits an ancestor whose own parent lookup fails, or revisits an identity
(a cycle); `stuck` is returned only when the starting identity has no
record, which never happens for identities drawn from the record set. -/
def chase (qt : String) (recs : RecordSet) (visited : List NodeId) (id : NodeId) : ChaseOutcome :=
  if hv : id ∈ visited then .cycle
  else
    match hf : findRec recs id with
    | none => .stuck
    | some d =>
      match resolveParent qt recs (parentKey id d) with
      | none => .orphanAncestor
      | some .root => .reachedRoot
      | some (.node pid) => chase qt recs (id :: visited) pid
termination_by ((recs.map Prod.fst).filter (fun k => decide (k ∉ visited))).length
decreasing_by
  exact length_filter_lt_of_mem _ _ _ (findRec_some_mem_keys recs id d hf) hv

theorem chase_cycle_of_mem (qt : String) (recs : RecordSet) (visited : List NodeId) (id : NodeId)
    (hv : id ∈ visited) : chase qt recs visited id = .cycle := by
  rw [chase]
  simp [hv]

theorem chase_stuck_of (qt : String) (recs : RecordSet) (visited : List NodeId) (id : NodeId)
    (hv : id ∉ visited) (hf : findRec recs id = none) : chase qt recs visited id = .stuck := by
  rw [chase, dif_neg hv]
  split
  · rfl
  · next d2 heq => rw [hf] at heq; cases heq

theorem chase_orphan_of (qt : String) (recs : RecordSet) (visited : List NodeId) (id : NodeId)
    (d : NodeDetails) (hv : id ∉ visited) (hf : findRec recs id = some d)
    (hp : resolveParent qt recs (parentKey id d) = none) :
    chase qt recs visited id = .orphanAncestor := by
  rw [chase, dif_neg hv]
  split
  · next heq => rw [hf] at heq; cases heq
  · next d2 heq =>
    rw [hf] at heq
    cases heq
    rw [hp]

theorem chase_root_of (qt : String) (recs : RecordSet) (visited : List NodeId) (id : NodeId)
    (d : NodeDetails) (hv : id ∉ visited) (hf : findRec recs id = some d)
    (hp : resolveParent qt recs (parentKey id d) = some .root) :
    chase qt recs visited id = .reachedRoot := by
  rw [chase, dif_neg hv]
  split
  · next heq => rw [hf] at heq; cases heq
  · next d2 heq =>
    rw [hf] at heq
    cases heq
    rw [hp]

theorem chase_step (qt : String) (recs : RecordSet) (visited : List NodeId) (id : NodeId)
    (d : NodeDetails) (pid : NodeId) (hv : id ∉ visited) (hf : findRec recs id = some d)
    (hp : resolveParent qt recs (parentKey id d) = some (.node pid)) :
    chase qt recs visited id = chase qt recs (id :: visited) pid := by
  rw [chase, dif_neg hv]
  split
  · next heq => rw [hf] at heq; cases heq
  · next d2 heq =>
    rw [hf] at heq
    cases heq
    rw [hp]

theorem chase_ne_stuck (qt : String) (recs : RecordSet) (visited : List NodeId) (id : NodeId) :
    (findRec recs id).isSome → chase qt recs visited id ≠ .stuck := by
  induction visited, id using chase.induct qt recs with
  | case1 visited id hv =>
    intro _
    rw [chase_cycle_of_mem qt recs visited id hv]
    simp
  | case2 visited id hv hf =>
    intro hs
    rw [hf] at hs
    cases hs
  | case3 visited id hv d hf hp =>
    intro _
    rw [chase_orphan_of qt recs visited id d hv hf hp]
    simp
  | case4 visited id hv d hf hp =>
    intro _
    rw [chase_root_of qt recs visited id d hv hf hp]
    simp
  | case5 visited id hv d hf pid hp ih =>
    intro _
    rw [chase_step qt recs visited id d pid hv hf hp]
    have hps := resolveParent_node_isSome qt recs (parentKey id d) pid hp
    apply ih
    rw [hps.1]
    exact hps.2

theorem chase_reachedRoot (qt : String) (recs : RecordSet) (visited : List NodeId) (id : NodeId) :
    chase qt recs visited id = .reachedRoot → ReachesRoot qt recs id := by
  induction visited, id using chase.induct qt recs with
  | case1 visited id hv =>
    intro h
    rw [chase_cycle_of_mem qt recs visited id hv] at h
    cases h
  | case2 visited id hv hf =>
    intro h
    rw [chase_stuck_of qt recs visited id hv hf] at h
    cases h
  | case3 visited id hv d hf hp =>
    intro h
    rw [chase_orphan_of qt recs visited id d hv hf hp] at h
    cases h
  | case4 visited id hv d hf hp =>
    intro _
    exact ReachesRoot.direct id d hf hp
  | case5 visited id hv d hf pid hp ih =>
    intro h
    rw [chase_step qt recs visited id d pid hv hf hp] at h
    exact ReachesRoot.step id d pid hf hp (ih h)

theorem findRec_eq_of_mem_nodup (recs : RecordSet) (id : NodeId) (d : NodeDetails)
    (hN : (recs.map Prod.fst).Nodup) (hm : (id, d) ∈ recs) : findRec recs id = some d := by
  induction recs with
  | nil => cases hm
  | cons r rest ih =>
    rw [List.map_cons, List.nodup_cons] at hN
    rw [List.mem_cons] at hm
    rcases hm with h | h
    · rw [← h, findRec]
      simp
    · rw [findRec]
      have hk : r.1 ≠ id := by
        intro he
        apply hN.1
        rw [he]
        exact List.mem_map_of_mem Prod.fst h
      rw [if_neg hk]
      exact ih hN.2 h

theorem details_eq_of_mem_nodup (recs : RecordSet) (id : NodeId) (d1 d2 : NodeDetails)
    (hN : (recs.map Prod.fst).Nodup) (h1 : (id, d1) ∈ recs) (h2 : (id, d2) ∈ recs) :
    d1 = d2 := by
  have e1 := findRec_eq_of_mem_nodup recs id d1 hN h1
  have e2 := findRec_eq_of_mem_nodup recs id d2 hN h2
  rw [e1] at e2
  exact Option.some.inj e2

theorem mem_buildOrphans_iff (qt : String) (recs : RecordSet) (id : NodeId) :
    id ∈ buildOrphans qt recs ↔
      ∃ d, (id, d) ∈ recs ∧ placeRecord qt recs id d = .orphan := by
  unfold buildOrphans
  rw [List.mem_map]
  constructor
  · rintro ⟨r, hr, rfl⟩
    rw [List.mem_filter] at hr
    exact ⟨r.2, hr.1, by simpa using hr.2⟩
  · rintro ⟨d, hm, hp⟩
    refine ⟨(id, d), ?_, rfl⟩
    rw [List.mem_filter]
    exact ⟨hm, by simpa using hp⟩

theorem mem_buildForestIds_iff (qt : String) (recs : RecordSet) (id : NodeId) :
    id ∈ buildForestIds qt recs ↔
      ∃ d, (id, d) ∈ recs ∧ placeRecord qt recs id d ≠ .orphan := by
  unfold buildForestIds
  rw [List.mem_map]
  constructor
  · rintro ⟨r, hr, rfl⟩
    rw [List.mem_filter] at hr
    exact ⟨r.2, hr.1, by simpa using hr.2⟩
  · rintro ⟨d, hm, hp⟩
    refine ⟨(id, d), ?_, rfl⟩
    rw [List.mem_filter]
    exact ⟨hm, by simpa using hp⟩

theorem mem_buildRootTransactions_iff (qt : String) (recs : RecordSet) (id : NodeId) :
    id ∈ buildRootTransactions qt recs ↔
      ∃ d, (id, d) ∈ recs ∧ d.transaction = true ∧
        placeRecord qt recs id d = .attached .root := by
  unfold buildRootTransactions
  rw [List.mem_map]
  constructor
  · rintro ⟨r, hr, rfl⟩
    rw [List.mem_filter] at hr
    have h2 := hr.2
    simp only [Bool.and_eq_true, beq_iff_eq] at h2
    exact ⟨r.2, hr.1, h2.1, h2.2⟩
  · rintro ⟨d, hm, ht, hp⟩
    refine ⟨(id, d), ?_, rfl⟩
    rw [List.mem_filter]
    refine ⟨hm, ?_⟩
    simp only [Bool.and_eq_true, beq_iff_eq]
    exact ⟨ht, hp⟩

/-- Claim C1 (amended).  For every record set with pairwise distinct
identities: (1) no identity is both attached in the forest and placed in
the orphan collection; (2) every record is placed on exactly one of the
two sides; (3) every identity attached in the forest either reaches the
synthetic root by resolved parent hops, or its parent chain hits an
ancestor whose own parent lookup fails, or its parent chain enters a
cycle (the claim's unconditional reachability fails in the latter two
situations, see the counterexample). -/
theorem c1_forest_orphans_partition (qt : String) (recs : RecordSet)
    (hN : (recs.map Prod.fst).Nodup) :
    (∀ id, ¬(id ∈ buildForestIds qt recs ∧ id ∈ buildOrphans qt recs)) ∧
    (∀ id d, (id, d) ∈ recs → id ∈ buildForestIds qt recs ∨ id ∈ buildOrphans qt recs) ∧
    (∀ id, id ∈ buildForestIds qt recs →
      ReachesRoot qt recs id ∨ chase qt recs [] id = .orphanAncestor ∨
        chase qt recs [] id = .cycle) := by
  refine ⟨?_, ?_, ?_⟩
  · rintro id ⟨hf, ho⟩
    rw [mem_buildForestIds_iff] at hf
    rw [mem_buildOrphans_iff] at ho
    obtain ⟨d1, hm1, hp1⟩ := hf
    obtain ⟨d2, hm2, hp2⟩ := ho
    have hd := details_eq_of_mem_nodup recs id d1 d2 hN hm1 hm2
    rw [hd] at hp1
    exact hp1 hp2
  · intro id d hm
    by_cases hp : placeRecord qt recs id d = .orphan
    · right
      rw [mem_buildOrphans_iff]
      exact ⟨d, hm, hp⟩
    · left
      rw [mem_buildForestIds_iff]
      exact ⟨d, hm, hp⟩
  · intro id hf
    rw [mem_buildForestIds_iff] at hf
    obtain ⟨d, hm, _⟩ := hf
    have hsome : (findRec recs id).isSome := findRec_isSome_of_mem recs id d hm
    cases hout : chase qt recs [] id with
    | reachedRoot => exact Or.inl (chase_reachedRoot qt recs [] id hout)
    | orphanAncestor => exact Or.inr (Or.inl rfl)
    | cycle => exact Or.inr (Or.inr rfl)
    | stuck => exact absurd hout (chase_ne_stuck qt recs [] id hsome)

/-- A record set holding a single self-parented record. -/
def selfLoopRecs : RecordSet :=
  [(⟨"t0", "s0"⟩, ⟨"s0", "self", "ty", "svc", "", false⟩)]

/-- Claim C1 counterexample.  A self-parented record is attached in the
forest (its parent lookup resolves, to its own node), yet it is not
reachable from the synthetic root by resolved parent hops — refuting the
claim's statement that every node placed in the forest is reachable from
the synthetic root. -/
theorem c1_counterexample :
    (⟨"t0", "s0"⟩ : NodeId) ∈ buildForestIds "t0" selfLoopRecs ∧
      ¬ ReachesRoot "t0" selfLoopRecs ⟨"t0", "s0"⟩ := by
  constructor
  · decide
  · suffices hall : ∀ id, ReachesRoot "t0" selfLoopRecs id → False from
      fun h => hall _ h
    intro id h
    induction h with
    | direct id d hf hp =>
      rw [selfLoopRecs, findRec] at hf
      by_cases hid : (⟨⟨"t0", "s0"⟩, ⟨"s0", "self", "ty", "svc", "", false⟩⟩ :
          NodeId × NodeDetails).1 = id
      · rw [if_pos hid] at hf
        rw [← hid] at hp
        cases hf
        exact absurd hp (by decide)
      · rw [if_neg hid] at hf
        rw [findRec] at hf
        cases hf
    | step id d pid hf hp hr ih => exact ih

/-- Scenario A of the spec: a root transaction with one child span. -/
def scenarioARecs : RecordSet :=
  [(⟨"T", "1"⟩, ⟨"", "op1", "request", "svc-a", "", true⟩),
   (⟨"T", "2"⟩, ⟨"1", "db", "sql", "svc-a", "", false⟩)]

/-- Witness for claim C1 at a concrete record set. -/
theorem c1_witness :
    ¬((⟨"T", "2"⟩ : NodeId) ∈ buildForestIds "T" scenarioARecs ∧
      (⟨"T", "2"⟩ : NodeId) ∈ buildOrphans "T" scenarioARecs) :=
  (c1_forest_orphans_partition "T" scenarioARecs (by decide)).1 ⟨"T", "2"⟩

/-- Claim C2 (amended).  A record whose parent identity equals its own
identity is not classified as an orphan: because the node map is fully
populated before parents are resolved, the parent lookup resolves to the
record's own node, so the record is attached as its own child and its
parent chain is a cycle that never reaches the synthetic root. -/
theorem c2_self_parent_attaches_to_itself (qt : String) (recs : RecordSet)
    (id : NodeId) (d : NodeDetails) (hN : (recs.map Prod.fst).Nodup)
    (hm : (id, d) ∈ recs) (hp : d.parentID = id.spanID) :
    placeRecord qt recs id d = .attached (.node id) ∧
    id ∉ buildOrphans qt recs ∧
    chase qt recs [] id = .cycle := by
  have hkey : parentKey id d = id := by
    unfold parentKey
    rw [hp]
  have hfind : findRec recs id = some d := findRec_eq_of_mem_nodup recs id d hN hm
  have hres : resolveParent qt recs (parentKey id d) = some (.node id) := by
    rw [hkey]
    unfold resolveParent
    rw [if_pos (by rw [hfind]; rfl)]
  refine ⟨?_, ?_, ?_⟩
  · unfold placeRecord
    rw [hres]
  · intro ho
    rw [mem_buildOrphans_iff] at ho
    obtain ⟨d2, hm2, hp2⟩ := ho
    have hd := details_eq_of_mem_nodup recs id d d2 hN hm hm2
    rw [← hd] at hp2
    unfold placeRecord at hp2
    rw [hres] at hp2
    cases hp2
  · rw [chase_step qt recs [] id d id (by simp) hfind hres]
    exact chase_cycle_of_mem qt recs [id] id (by simp)

/-- A record set holding a single self-parented transaction record. -/
def selfParentRecs : RecordSet :=
  [(⟨"tr", "a"⟩, ⟨"a", "n", "req", "sv", "", true⟩)]

/-- Claim C2 counterexample.  The self-parented record is attached (to its
own node), and the orphan collection of the build is empty — refuting the
claim that such a record is classified as an orphan and never attached. -/
theorem c2_counterexample :
    buildOrphans "tr" selfParentRecs = [] ∧
    placeRecord "tr" selfParentRecs ⟨"tr", "a"⟩ ⟨"a", "n", "req", "sv", "", true⟩ =
      .attached (.node ⟨"tr", "a"⟩) := by
  decide

/-- A second record set with a self-parented span record. -/
def selfParentSpanRecs : RecordSet :=
  [(⟨"w", "p"⟩, ⟨"p", "m", "sp", "sw", "", false⟩)]

/-- Witness for claim C2 at a concrete record set. -/
theorem c2_witness :
    placeRecord "w" selfParentSpanRecs ⟨"w", "p"⟩ ⟨"p", "m", "sp", "sw", "", false⟩ =
      .attached (.node ⟨"w", "p"⟩) ∧
    (⟨"w", "p"⟩ : NodeId) ∉ buildOrphans "w" selfParentSpanRecs ∧
    chase "w" selfParentSpanRecs [] ⟨"w", "p"⟩ = .cycle :=
  c2_self_parent_attaches_to_itself "w" selfParentSpanRecs ⟨"w", "p"⟩
    ⟨"p", "m", "sp", "sw", "", false⟩ (by decide) (by decide) (by decide)

/-- Claim C6 (amended).  A record whose `parentSpanID` is empty attaches
directly under the synthetic root, provided its own `traceID` equals the
queried trace id and no record in the set occupies the root identity
`(traceID, "")` (such a record would overwrite the root entry in the node
map). -/
theorem c6_empty_parent_attaches_root (qt : String) (recs : RecordSet)
    (id : NodeId) (d : NodeDetails) (hm : (id, d) ∈ recs) (hp : d.parentID = "")
    (ht : id.traceID = qt) (hr : findRec recs (rootKey qt) = none) :
    placeRecord qt recs id d = .attached .root ∧ id ∈ buildForestIds qt recs := by
  have hkey : parentKey id d = rootKey qt := by
    unfold parentKey rootKey
    rw [hp, ht]
  have hres : resolveParent qt recs (parentKey id d) = some .root := by
    rw [hkey]
    unfold resolveParent
    rw [if_neg (by rw [hr]; simp), if_pos rfl]
  constructor
  · unfold placeRecord
    rw [hres]
  · rw [mem_buildForestIds_iff]
    refine ⟨d, hm, ?_⟩
    unfold placeRecord
    rw [hres]
    simp

/-- A record set with one record from a foreign trace with empty parent. -/
def foreignTraceRecs : RecordSet :=
  [(⟨"u", "s"⟩, ⟨"", "x", "sp", "sv", "", false⟩)]

/-- Claim C6 counterexample.  A record with empty `parentSpanID` whose
`traceID` ("u") differs from the queried trace ("t") does not attach under
the synthetic root: its parent lookup uses key `("u", "")`, which is
neither a record nor the root key `("t", "")`, so the record is an
orphan. -/
theorem c6_counterexample :
    placeRecord "t" foreignTraceRecs ⟨"u", "s"⟩ ⟨"", "x", "sp", "sv", "", false⟩ =
      .orphan := by
  decide

/-- A record set with one empty-parent record of the queried trace. -/
def sameTraceRecs : RecordSet :=
  [(⟨"v", "c"⟩, ⟨"", "y", "req", "sv", "", true⟩)]

/-- Witness for claim C6 at a concrete record set. -/
theorem c6_witness :
    placeRecord "v" sameTraceRecs ⟨"v", "c"⟩ ⟨"", "y", "req", "sv", "", true⟩ =
      .attached .root ∧
    (⟨"v", "c"⟩ : NodeId) ∈ buildForestIds "v" sameTraceRecs :=
  c6_empty_parent_attaches_root "v" sameTraceRecs ⟨"v", "c"⟩
    ⟨"", "y", "req", "sv", "", true⟩ (by decide) rfl rfl (by decide)

/-- Claim C7.  A record is included in the `rootTransactions` collection
used for deep-link generation exactly when it is marked as a transaction
and its resolved parent is the synthetic root object itself. -/
theorem c7_root_transactions_iff (qt : String) (recs : RecordSet) (id : NodeId) :
    id ∈ buildRootTransactions qt recs ↔
      ∃ d, (id, d) ∈ recs ∧ d.transaction = true ∧
        placeRecord qt recs id d = .attached .root :=
  mem_buildRootTransactions_iff qt recs id

/-- The string `color.CyanString` produces when colors are enabled: the
text wrapped in the ANSI foreground-cyan escape sequence. -/
def cyanString (s : String) : String := "\x1b[36m" ++ s ++ "\x1b[0m"

/-- The string `color.RedString` produces: the text wrapped in the ANSI
foreground-red escape sequence (used for the `<orphaned>` label). -/
def redString (s : String) : String := "\x1b[31m" ++ s ++ "\x1b[0m"

/-- Label construction for one record's tree node (source lines 107-114):
start from `"name (service)"`, append `" => result"` when the result is
non-empty, and wrap the whole text in cyan when the record is a
transaction. -/
def nodeText (d : NodeDetails) : String :=
  let t0 := d.name ++ " (" ++ d.service ++ ")"
  let t1 := if d.result ≠ "" then t0 ++ " => " ++ d.result else t0
  if d.transaction then cyanString t1 else t1

/-- Claim C9.  Every record's label is composed from its name and service
name; the result code is appended exactly when it is non-empty; and the
label is highlighted (cyan-wrapped) exactly when the record is a
transaction. -/
theorem c9_node_label (d : NodeDetails) :
    nodeText d =
      (let plain :=
        if d.result = "" then d.name ++ " (" ++ d.service ++ ")"
        else d.name ++ " (" ++ d.service ++ ")" ++ " => " ++ d.result
      if d.transaction then cyanString plain else plain) := by
  unfold nodeText
  by_cases hr : d.result = ""
  · simp [hr]
  · simp [hr]

/-- One fetch attempt's outcome as seen by the polling loop: a record set
(the Go map contents) or an error from `fetchTrace`. -/
inductive FetchResult where
  | ok (recs : RecordSet)
  | err (msg : String)
deriving DecidableEq, Repr

/-- How a controller run ends.  `outOfEvents` means the supplied event
schedule was exhausted while the loop was still running (the loop itself
would continue). -/
inductive Outcome where
  | deadlineExit
  | fatalError
  | oneShotExit
  | outOfEvents
deriving DecidableEq, Repr

/-- Observable log of one controller run: how many 5-second sleeps were
performed, how many fetches were issued, how many build phases were
entered, how many of those were discarded by the restart
(`continue queryNodes`), how many completed cycles rendered output, and
how the run ended. -/
structure RunLog where
  sleeps : Nat
  fetches : Nat
  builds : Nat
  restarts : Nat
  renders : Nat
  outcome : Outcome
deriving DecidableEq, Repr

/-- The polling loop of `main` (source lines 80-143), driven by a finite
schedule of events.  Each event is consumed at the top of the inner loop
and supplies the deadline reading (`!time.Now().Before(deadline)`) for
this iteration together with the result the fetch would return.  With
`recent` (the `recentRequest` flag): a true deadline reading exits; a
sleep always precedes the fetch.  After a fetch, a record count equal to
`last` (`lastNodeCount`) loops back; a differing count enters the build,
which restarts on an unresolved parent when `recent` is set, and
otherwise renders; after a render the loop continues when `recent` is
set and exits when it is not. -/
def runController (qt : String) (recent : Bool) : Nat → List (Bool × FetchResult) → RunLog
  | _, [] => ⟨0, 0, 0, 0, 0, .outOfEvents⟩
  | last, (dl, fr) :: rest =>
    if recent && dl then ⟨0, 0, 0, 0, 0, .deadlineExit⟩
    else
      let s : Nat := if recent then 1 else 0
      match fr with
      | .err _ => ⟨s, 1, 0, 0, 0, .fatalError⟩
      | .ok recs =>
        if recs.length ≠ last then
          if recent && hasUnresolved qt recs then
            let l := runController qt recent recs.length rest
            ⟨s + l.sleeps, 1 + l.fetches, 1 + l.builds, 1 + l.restarts, l.renders, l.outcome⟩
          else if recent then
            let l := runController qt recent recs.length rest
            ⟨s + l.sleeps, 1 + l.fetches, 1 + l.builds, l.restarts, 1 + l.renders, l.outcome⟩
          else
            ⟨s, 1, 1, 0, 1, .oneShotExit⟩
        else
          let l := runController qt recent last rest
          ⟨s + l.sleeps, 1 + l.fetches, l.builds, l.restarts, l.renders, l.outcome⟩


theorem runController_true_deadline (qt : String) (last : Nat) (fr : FetchResult)
    (rest : List (Bool × FetchResult)) :
    runController qt true last ((true, fr) :: rest) = ⟨0, 0, 0, 0, 0, .deadlineExit⟩ := rfl

theorem runController_true_err (qt : String) (last : Nat) (m : String)
    (rest : List (Bool × FetchResult)) :
    runController qt true last ((false, .err m) :: rest) = ⟨1, 1, 0, 0, 0, .fatalError⟩ := rfl

theorem runController_false_err (qt : String) (last : Nat) (dl : Bool) (m : String)
    (rest : List (Bool × FetchResult)) :
    runController qt false last ((dl, .err m) :: rest) = ⟨0, 1, 0, 0, 0, .fatalError⟩ := rfl

theorem runController_true_restart (qt : String) (last : Nat) (recs : RecordSet)
    (rest : List (Bool × FetchResult)) (hne : recs.length ≠ last)
    (hu : hasUnresolved qt recs = true) :
    runController qt true last ((false, .ok recs) :: rest) =
      ⟨1 + (runController qt true recs.length rest).sleeps,
       1 + (runController qt true recs.length rest).fetches,
       1 + (runController qt true recs.length rest).builds,
       1 + (runController qt true recs.length rest).restarts,
       (runController qt true recs.length rest).renders,
       (runController qt true recs.length rest).outcome⟩ := by
  rw [runController]
  simp [hne, hu]

theorem runController_true_render (qt : String) (last : Nat) (recs : RecordSet)
    (rest : List (Bool × FetchResult)) (hne : recs.length ≠ last)
    (hu : hasUnresolved qt recs = false) :
    runController qt true last ((false, .ok recs) :: rest) =
      ⟨1 + (runController qt true recs.length rest).sleeps,
       1 + (runController qt true recs.length rest).fetches,
       1 + (runController qt true recs.length rest).builds,
       (runController qt true recs.length rest).restarts,
       1 + (runController qt true recs.length rest).renders,
       (runController qt true recs.length rest).outcome⟩ := by
  rw [runController]
  simp [hne, hu]

theorem runController_true_equal (qt : String) (last : Nat) (recs : RecordSet)
    (rest : List (Bool × FetchResult)) (he : recs.length = last) :
    runController qt true last ((false, .ok recs) :: rest) =
      ⟨1 + (runController qt true last rest).sleeps,
       1 + (runController qt true last rest).fetches,
       (runController qt true last rest).builds,
       (runController qt true last rest).restarts,
       (runController qt true last rest).renders,
       (runController qt true last rest).outcome⟩ := by
  rw [runController]
  simp [he]

theorem runController_false_build (qt : String) (last : Nat) (dl : Bool) (recs : RecordSet)
    (rest : List (Bool × FetchResult)) (hne : recs.length ≠ last) :
    runController qt false last ((dl, .ok recs) :: rest) = ⟨0, 1, 1, 0, 1, .oneShotExit⟩ := by
  rw [runController]
  simp [hne]

theorem runController_false_equal (qt : String) (last : Nat) (dl : Bool) (recs : RecordSet)
    (rest : List (Bool × FetchResult)) (he : recs.length = last) :
    runController qt false last ((dl, .ok recs) :: rest) =
      ⟨(runController qt false last rest).sleeps,
       1 + (runController qt false last rest).fetches,
       (runController qt false last rest).builds,
       (runController qt false last rest).restarts,
       (runController qt false last rest).renders,
       (runController qt false last rest).outcome⟩ := by
  rw [runController]
  simp [he]

/-- Claim C3 (the code, not the claim).  With `recentRequest = false` and
an empty trace, every fetch returns a record count (0) equal to the
initial stored count, so the inner loop refetches immediately forever:
for any finite schedule of empty fetches the controller consumes every
event fetching, performs no build and no render, and never reaches the
one-shot exit — the claimed single build-and-render cycle never
happens. -/
theorem c3_one_shot_empty_trace_loops (qt : String) (evs : List (Bool × FetchResult))
    (h : ∀ e ∈ evs, e.2 = FetchResult.ok []) :
    runController qt false 0 evs = ⟨0, evs.length, 0, 0, 0, .outOfEvents⟩ := by
  induction evs with
  | nil => rfl
  | cons e rest ih =>
    obtain ⟨dl, fr⟩ := e
    have hfr : fr = FetchResult.ok [] := h (dl, fr) (List.mem_cons_self _ _)
    subst hfr
    have ih' := ih (fun e he => h e (List.mem_cons_of_mem _ he))
    rw [runController_false_equal qt 0 dl [] rest rfl, ih']
    simp [Nat.add_comm]

/-- A concrete schedule of three empty fetches. -/
def emptyFetchEvents : List (Bool × FetchResult) :=
  [(false, .ok []), (false, .ok []), (false, .ok [])]

/-- Witness for claim C3's theorem at a concrete schedule. -/
theorem c3_witness :
    runController "q" false 0 emptyFetchEvents = ⟨0, 3, 0, 0, 0, .outOfEvents⟩ :=
  c3_one_shot_empty_trace_loops "q" emptyFetchEvents (by decide)

/-- Claim C4 (amended).  With `recentRequest = true` the deadline check
and the fixed 5-second sleep sit at the top of every inner-loop
iteration, before the fetch: every fetch — the first one, a refetch
after an equal count, and the refetch after a restart alike — is
preceded by exactly one sleep, so a run performs exactly as many sleeps
as fetches; with `recentRequest = false` no sleep ever occurs. -/
theorem c4_sleep_before_every_fetch (qt : String) (last : Nat)
    (evs : List (Bool × FetchResult)) :
    (runController qt true last evs).sleeps = (runController qt true last evs).fetches ∧
    (runController qt false last evs).sleeps = 0 := by
  induction evs generalizing last with
  | nil => exact ⟨rfl, rfl⟩
  | cons e rest ih =>
    obtain ⟨dl, fr⟩ := e
    constructor
    · cases dl
      · cases fr with
        | ok recs =>
          by_cases he : recs.length = last
          · rw [runController_true_equal qt last recs rest he]
            simp [(ih last).1]
          · by_cases hu : hasUnresolved qt recs = true
            · rw [runController_true_restart qt last recs rest he hu]
              simp [(ih recs.length).1]
            · rw [runController_true_render qt last recs rest he
                (by simpa using hu)]
              simp [(ih recs.length).1]
        | err m => rw [runController_true_err]
      · rw [runController_true_deadline]
    · cases fr with
      | ok recs =>
        by_cases he : recs.length = last
        · rw [runController_false_equal qt last dl recs rest he]
          exact (ih last).2
        · rw [runController_false_build qt last dl recs rest he]
      | err m => rw [runController_false_err]

/-- A record set with one record whose declared parent is absent. -/
def unresolvedRecs : RecordSet :=
  [(⟨"t", "s2"⟩, ⟨"s1", "db", "sql", "svc", "", false⟩)]

/-- A schedule: two fetches of the unresolved set, deadline never hit. -/
def restartEvents : List (Bool × FetchResult) :=
  [(false, .ok unresolvedRecs), (false, .ok unresolvedRecs)]

/-- Claim C4 counterexample.  In this run the first sleep happens before
the first fetch, when no previous cycle's count exists to be equal, and
the second sleep happens right after the restart triggered by the
unresolved parent — two sleeps although the claim permits a sleep only
in an equal-count state and asserts the restart retries without
waiting. -/
theorem c4_counterexample :
    runController "t" true 0 restartEvents = ⟨2, 2, 1, 1, 0, .outOfEvents⟩ := by
  decide

/-- Claim C5 (amended).  With `recentRequest = true` the deadline exit is
reachable having rendered nothing: when every fetch returns an empty
record set the controller performs no build and no render, and ends the
run either at the deadline or still polling when the schedule runs out.
The claim's assertion that the deadline exit is only reachable after a
completed build/render pass is refuted by the counterexample. -/
theorem c5_deadline_exit_without_render (qt : String) (evs : List (Bool × FetchResult))
    (h : ∀ e ∈ evs, e.2 = FetchResult.ok []) :
    (runController qt true 0 evs).renders = 0 ∧
    (runController qt true 0 evs).builds = 0 ∧
    ((runController qt true 0 evs).outcome = .deadlineExit ∨
      (runController qt true 0 evs).outcome = .outOfEvents) := by
  induction evs with
  | nil => exact ⟨rfl, rfl, Or.inr rfl⟩
  | cons e rest ih =>
    obtain ⟨dl, fr⟩ := e
    have hfr : fr = FetchResult.ok [] := h (dl, fr) (List.mem_cons_self _ _)
    subst hfr
    have ih' := ih (fun e he => h e (List.mem_cons_of_mem _ he))
    cases dl
    · rw [runController_true_equal qt 0 [] rest rfl]
      exact ⟨ih'.1, ih'.2.1, ih'.2.2⟩
    · rw [runController_true_deadline]
      exact ⟨rfl, rfl, Or.inl rfl⟩

/-- A schedule: one empty fetch, then the deadline is reached. -/
def deadlineEvents : List (Bool × FetchResult) :=
  [(false, .ok []), (true, .ok [])]

/-- Claim C5 counterexample.  The controller polls an empty trace once,
then exits at the deadline having built and rendered nothing — refuting
the claim that the deadline exit is only reachable after at least one
build/render pass. -/
theorem c5_counterexample :
    runController "t" true 0 deadlineEvents = ⟨1, 1, 0, 0, 0, .deadlineExit⟩ := by
  decide

/-- A schedule of two empty fetches followed by the deadline. -/
def emptyPollEvents : List (Bool × FetchResult) :=
  [(false, .ok []), (false, .ok []), (true, .ok [])]

/-- Witness for claim C5's theorem at a concrete schedule. -/
theorem c5_witness :
    (runController "t2" true 0 emptyPollEvents).renders = 0 ∧
    (runController "t2" true 0 emptyPollEvents).builds = 0 ∧
    ((runController "t2" true 0 emptyPollEvents).outcome = .deadlineExit ∨
      (runController "t2" true 0 emptyPollEvents).outcome = .outOfEvents) :=
  c5_deadline_exit_without_render "t2" emptyPollEvents (by decide)

/-- Claim C10 (amended).  The synthetic root is keyed only by the queried
trace id, so a record with an empty `parentSpanID` whose own `traceID`
differs from the queried one fails its parent lookup and is an orphan —
provided no record in the set occupies the identity
`(record's traceID, "")`, which the lookup would otherwise find.  In
polling mode such a set makes the build phase restart. -/
theorem c10_foreign_trace_empty_parent_orphan (qt : String) (recs : RecordSet)
    (id : NodeId) (d : NodeDetails) (hm : (id, d) ∈ recs) (hp : d.parentID = "")
    (ht : id.traceID ≠ qt) (hr : findRec recs ⟨id.traceID, ""⟩ = none) :
    placeRecord qt recs id d = .orphan ∧
    id ∈ buildOrphans qt recs ∧
    hasUnresolved qt recs = true ∧
    (∀ (last : Nat) (rest : List (Bool × FetchResult)), recs.length ≠ last →
      runController qt true last ((false, .ok recs) :: rest) =
        ⟨1 + (runController qt true recs.length rest).sleeps,
         1 + (runController qt true recs.length rest).fetches,
         1 + (runController qt true recs.length rest).builds,
         1 + (runController qt true recs.length rest).restarts,
         (runController qt true recs.length rest).renders,
         (runController qt true recs.length rest).outcome⟩) := by
  have hkey : parentKey id d = ⟨id.traceID, ""⟩ := by
    unfold parentKey
    rw [hp]
  have hres : resolveParent qt recs (parentKey id d) = none := by
    rw [hkey]
    unfold resolveParent
    rw [if_neg (by rw [hr]; simp)]
    have hne : (⟨id.traceID, ""⟩ : NodeId) ≠ rootKey qt := by
      intro hc
      apply ht
      exact congrArg NodeId.traceID hc
    rw [if_neg hne]
  have hplace : placeRecord qt recs id d = .orphan := by
    unfold placeRecord
    rw [hres]
  have hu : hasUnresolved qt recs = true := by
    unfold hasUnresolved
    rw [List.any_eq_true]
    exact ⟨(id, d), hm, by simp [hplace]⟩
  refine ⟨hplace, ?_, hu, ?_⟩
  · rw [mem_buildOrphans_iff]
    exact ⟨d, hm, hplace⟩
  · intro last rest hne
    exact runController_true_restart qt last recs rest hne hu

/-- A foreign-trace record set where identity `("u", "")` is occupied. -/
def usurpedRootRecs : RecordSet :=
  [(⟨"u", ""⟩, ⟨"x", "fake-root", "sp", "sv", "", false⟩),
   (⟨"u", "s"⟩, ⟨"", "child", "sp", "sv", "", false⟩)]

/-- Claim C10 counterexample.  The claim's universal statement that the
parent lookup of a foreign-trace, empty-parent record always fails is
refuted when another record occupies the identity `(traceID, "")`: here
the record `("u", "s")` with empty parent resolves its lookup to the
record keyed `("u", "")` and is attached under it, not an orphan. -/
theorem c10_counterexample :
    placeRecord "t" usurpedRootRecs ⟨"u", "s"⟩ ⟨"", "child", "sp", "sv", "", false⟩ =
      .attached (.node ⟨"u", ""⟩) ∧
    (⟨"u", "s"⟩ : NodeId) ∉ buildOrphans "t" usurpedRootRecs := by
  decide

/-- A single foreign-trace record with an empty parent. -/
def lostTraceRecs : RecordSet :=
  [(⟨"z", "s"⟩, ⟨"", "n", "sp", "sv", "", false⟩)]

/-- Witness for claim C10 at a concrete record set and schedule. -/
theorem c10_witness :
    placeRecord "q" lostTraceRecs ⟨"z", "s"⟩ ⟨"", "n", "sp", "sv", "", false⟩ = .orphan ∧
    (⟨"z", "s"⟩ : NodeId) ∈ buildOrphans "q" lostTraceRecs ∧
    hasUnresolved "q" lostTraceRecs = true ∧
    runController "q" true 0 [(false, .ok lostTraceRecs)] = ⟨1, 1, 1, 1, 0, .outOfEvents⟩ := by
  have h := c10_foreign_trace_empty_parent_orphan "q" lostTraceRecs ⟨"z", "s"⟩
    ⟨"", "n", "sp", "sv", "", false⟩ (by decide) rfl (by decide) (by decide)
  refine ⟨h.1, h.2.1, h.2.2.1, ?_⟩
  rw [h.2.2.2 0 [] (by decide)]
  rfl

/-- Per-span payload of a decoded hit (`source.Span` in `fetchTrace`). -/
structure SpanInfo where
  hexID : String
  name : String
  type_ : String
deriving DecidableEq, Repr

/-- Per-transaction payload of a decoded hit (`source.Transaction`). -/
structure TxInfo where
  id : String
  name : String
  type_ : String
  result : String
deriving DecidableEq, Repr

/-- A decoded `_source` document of one hit: the common fields plus the
optional span and transaction payloads (`source` struct in
`fetchTrace`). -/
structure SourceDoc where
  serviceName : String
  traceIDv : String
  parentIDv : String
  span : Option SpanInfo
  transaction : Option TxInfo
deriving DecidableEq, Repr

/-- One response of the two-part m-search: its error field, the reported
total hit count (`hits.TotalHits`), and the returned hits
(`hits.Hits`, already JSON-decoded). -/
structure ESResponse where
  errorReason : Option String
  totalHits : Nat
  hits : List SourceDoc
deriving DecidableEq, Repr

/-- Conversion of one hit into a `(nodeId, nodeDetails)` pair, following
the `switch` in `fetchTrace` (span checked first, then transaction);
`none` corresponds to the `panic("no transaction or span in doc")`
branch. -/
def decodeHit (doc : SourceDoc) : Option (NodeId × NodeDetails) :=
  match doc.span, doc.transaction with
  | some sp, _ =>
      some (⟨doc.traceIDv, sp.hexID⟩,
        ⟨doc.parentIDv, sp.name, sp.type_, doc.serviceName, "", false⟩)
  | none, some tx =>
      some (⟨doc.traceIDv, tx.id⟩,
        ⟨doc.parentIDv, tx.name, tx.type_, doc.serviceName, tx.result, true⟩)
  | none, none => none

/-- Insertion into the `nodes` map (`nodes[nodeId] = nodeDetails`):
replace an existing entry for the identity, otherwise append. -/
def insertNode (m : RecordSet) (id : NodeId) (d : NodeDetails) : RecordSet :=
  if m.any (fun r => r.1 == id) then
    m.map (fun r => if r.1 = id then (id, d) else r)
  else m ++ [(id, d)]

/-- Processing of one response's hits into the accumulated node map; the
undecodable-hit case aborts (the source panics there, which also ends
the run). -/
def applyHits : List SourceDoc → RecordSet → Except String RecordSet
  | [], acc => .ok acc
  | doc :: rest, acc =>
    match decodeHit doc with
    | none => .error "no transaction or span in doc"
    | some (id, d) => applyHits rest (insertNode acc id d)

/-- Processing of the m-search responses in `fetchTrace` (lines 274-310):
a response error aborts; a reported total greater than the number of
returned hits aborts with "too many hits"; otherwise the hits are folded
into the node map and processing continues with the next response. -/
def processResponses : List ESResponse → RecordSet → Except String RecordSet
  | [], acc => .ok acc
  | r :: rest, acc =>
    match r.errorReason with
    | some reason => .error reason
    | none =>
      if r.hits.length < r.totalHits then .error "too many hits"
      else
        match applyHits r.hits acc with
        | .error e => .error e
        | .ok acc2 => processResponses rest acc2

/-- The record-set assembly of `fetchTrace`: process all responses
starting from the empty node map. -/
def fetchTraceModel (rs : List ESResponse) : Except String RecordSet :=
  processResponses rs []

theorem processResponses_error_of_truncated (rs : List ESResponse) :
    ∀ acc : RecordSet, (∃ r ∈ rs, r.hits.length < r.totalHits) →
      ∃ e, processResponses rs acc = .error e := by
  induction rs with
  | nil =>
    intro acc h
    obtain ⟨r, hr, _⟩ := h
    cases hr
  | cons r rest ih =>
    intro acc h
    rw [processResponses]
    cases herr : r.errorReason with
    | some reason => exact ⟨reason, rfl⟩
    | none =>
      by_cases htr : r.hits.length < r.totalHits
      · rw [if_pos htr]
        exact ⟨"too many hits", rfl⟩
      · have h' : ∃ r2 ∈ rest, r2.hits.length < r2.totalHits := by
          obtain ⟨r2, hr2, hl⟩ := h
          rw [List.mem_cons] at hr2
          rcases hr2 with rfl | hr2
          · exact absurd hl htr
          · exact ⟨r2, hr2, hl⟩
        rw [if_neg htr]
        cases happ : applyHits r.hits acc with
        | error e => exact ⟨e, rfl⟩
        | ok acc2 => exact ih acc2 h'

/-- Claim C8.  Whenever some m-search response reports more total
matching hits than it returned, `fetchTrace` returns an error (never a
silently truncated record set); and a fetch error makes the polling
loop end the run immediately with a fatal error (`log.Fatal`), with no
build or render in that or any later cycle. -/
theorem c8_truncated_fetch_errors_and_aborts :
    (∀ rs : List ESResponse, (∃ r ∈ rs, r.hits.length < r.totalHits) →
      ∃ e, fetchTraceModel rs = .error e) ∧
    (∀ (qt : String) (last : Nat) (m : String) (rest : List (Bool × FetchResult)),
      runController qt false last ((false, .err m) :: rest) = ⟨0, 1, 0, 0, 0, .fatalError⟩ ∧
      runController qt true last ((false, .err m) :: rest) = ⟨1, 1, 0, 0, 0, .fatalError⟩) := by
  constructor
  · intro rs h
    exact processResponses_error_of_truncated rs [] h
  · intro qt last m rest
    exact ⟨runController_false_err qt last false m rest, runController_true_err qt last m rest⟩

/-- A response reporting five total hits but returning none. -/
def truncatedResponse : ESResponse := ⟨none, 5, []⟩

/-- Witness for claim C8 at a concrete response list and schedule. -/
theorem c8_witness :
    (∃ e, fetchTraceModel [truncatedResponse] = .error e) ∧
    runController "q8" false 0 [(false, .err "boom")] = ⟨0, 1, 0, 0, 0, .fatalError⟩ :=
  ⟨c8_truncated_fetch_errors_and_aborts.1 [truncatedResponse]
    ⟨truncatedResponse, by decide, by decide⟩,
   (c8_truncated_fetch_errors_and_aborts.2 "q8" 0 "boom" []).1⟩
